import Mathlib

/-!
# Verification of the BaRDIC binning, normalization and significance pipeline

Shallow embedding of the core of the BaRDIC repository:

* `src/bardic/binops.py` — interval & binning engine and track construction;
* `src/bardic/api/formats.py` — the versioned hierarchical stores
  (`DnaDataset`, `Rdc`);
* `src/bardic/utils/peaks.py` — the significance engine.

Conventions of the embedding:

* integer genomic coordinates are `ℤ`; floating-point quantities
  (probabilities, counts after rescaling) are `ℚ` with exact arithmetic,
  so float rounding error is not modelled;
* pandas `NaN` cells are modelled as `Option` `none` where a claim depends
  on them; in places where a pandas sum skips `NaN`, the `ℚ` convention
  `x / 0 = 0` yields the same column sums and is noted at the definition;
* fallible Python code (`raise`) is modelled with `Except String`.
-/

deriving instance DecidableEq for Except

namespace Bardic

/-- `np.arange(0, stop, step)` for a positive integer `step`:
the `⌈stop/step⌉` multiples of `step` in `[0, stop)`. -/
def arangeZ (stop step : ℤ) : List ℤ :=
  (List.range ((stop.toNat + step.toNat - 1) / step.toNat)).map (fun i : ℕ => (i : ℤ) * step)

/-- `python range(start, stop, step)` for a positive integer `step`. -/
def rangeZ (start stop step : ℤ) : List ℤ :=
  (arangeZ (stop - start) step).map (fun x => start + x)

/-- `arr[-1] = v` on a numpy array: replace the last element by `v`
(the code never applies it to an empty array; on `[]` we return `[v]`). -/
def forceLast (l : List ℤ) (v : ℤ) : List ℤ :=
  l.dropLast ++ [v]

/-- `np.diff`: consecutive differences. -/
def diffs : List ℤ → List ℤ
  | a :: b :: rest => (b - a) :: diffs (b :: rest)
  | _ => []

/-- Partial geometric sum `1 + f + ⋯ + f^(n-1)`. -/
def geomSum (f : ℚ) (n : ℕ) : ℚ :=
  ((List.range n).map (fun i => f ^ i)).sum

/-- `np.cumsum(start_size * factor ** np.arange(0, n)).astype('int')` of
`make_geom_bins`, in exact arithmetic: entry `k` is
`⌊start_size * (1 + f + ⋯ + f^k)⌋`.  The float cumsum of the code is
modelled by the exact rational partial sum; `astype('int')` on the
positive values involved is the floor. -/
def geomCumsum (start_size : ℤ) (f : ℚ) (n : ℕ) : List ℤ :=
  (List.range n).map (fun k => ⌊(start_size : ℚ) * geomSum f (k + 1)⌋)

/-- `binops.make_geom_bins(length, start_size, factor)`.

For `factor > 1` the code computes
`final_index = round(np.log(1 - length*(1-factor)/start_size)/np.log(factor) - 1)`
with floating-point logarithms; that float-derived integer is threaded here
as the explicit parameter `final_index`, and every theorem below holds for
all of its values.  `np.arange(0, final_index + 1)` has
`(final_index + 1).toNat` entries. -/
def make_geom_bins (length start_size : ℤ) (factor : ℚ) (final_index : ℤ) :
    Except String (List ℤ) :=
  if factor < 1 then
    .error "factor value is less than 1."
  else if factor = 1 then
    .ok (forceLast (arangeZ length start_size) length)
  else
    .ok (forceLast ((0 : ℤ) :: geomCumsum start_size factor (final_index + 1).toNat) length)

/-- `binops.prune_geom_bins(geom_bins, max_linear_size)`.

`scaled_bins = geom_bins[:np.sum(np.diff(geom_bins) <= max_linear_size) + 1]`
counts all differences not exceeding `max_linear_size`; if some bin was
pruned, the remainder is refilled with
`linear_bins = np.array(range(scaled_bins[-1], chrom_length, max_linear_size))`
whose last entry is overwritten by `chrom_length`. -/
def prune_geom_bins (geom_bins : List ℤ) (max_linear_size : ℤ) : List ℤ :=
  let chrom_length := geom_bins.getLastD 0
  let scaled_bins := geom_bins.take ((diffs geom_bins).countP (fun d => d ≤ max_linear_size) + 1)
  if scaled_bins.length = geom_bins.length then
    geom_bins
  else
    let linear_bins := forceLast (rangeZ (scaled_bins.getLastD 0) chrom_length max_linear_size) chrom_length
    scaled_bins ++ linear_bins.drop 1

/-- A bed3 row: one genomic interval.  The `end` column is called `stop`
because `end` is a reserved word in Lean. -/
structure Bed3 where
  chrom : String
  start : ℤ
  stop : ℤ
deriving DecidableEq, Repr

/-- One chromosome's rows of `binops.make_linear_bins`. -/
def linearBinsChrom (bin_size : ℤ) (chrom : String) (length : ℤ) : List Bed3 :=
  let break_points := arangeZ length bin_size
  let starts := break_points.dropLast
  let ends := break_points.drop 1
  if break_points.length ≤ 1 then
    [⟨chrom, 0, length⟩]
  else
    let withTail :=
      if ends.getLastD 0 < length then
        (starts ++ [ends.getLastD 0], ends ++ [length])
      else
        (starts, ends)
    (withTail.1.zip withTail.2).map (fun p => ⟨chrom, p.1, p.2⟩)

/-- `binops.make_linear_bins(bin_size, chromsizes)`; the chromsizes
dictionary is an association list in insertion order. -/
def make_linear_bins (bin_size : ℤ) (chromsizes : List (String × ℤ)) : List Bed3 :=
  chromsizes.flatMap (fun p => linearBinsChrom bin_size p.1 p.2)

/-- `dict.copy()` of Python: a fresh dictionary with the same entries. -/
def dictCopy (d : List (String × ℤ)) : List (String × ℤ) := d

/-- `del d[k]` of Python: removes the key, raising `KeyError` when absent. -/
def dictDel (d : List (String × ℤ)) (k : String) : Except String (List (String × ℤ)) :=
  if (d.lookup k).isSome then
    .ok (d.filter (fun p => p.1 ≠ k))
  else
    .error "KeyError"

/-- `binops.make_trans_bins(bin_size, chromsizes, gene_chrom)`.

The second component of the result is the caller's `chromsizes` dictionary
after the call: the code copies the dictionary and deletes the gene
chromosome only from the copy, so the caller's object is returned
untouched. -/
def make_trans_bins (bin_size : ℤ) (chromsizes : List (String × ℤ)) (gene_chrom : String) :
    Except String (List Bed3) × List (String × ℤ) :=
  let c := dictCopy chromsizes
  match dictDel c gene_chrom with
  | .error e => (.error e, chromsizes)
  | .ok c2 => (.ok (make_linear_bins bin_size c2), chromsizes)

/-- `binops.make_cis_bins(factor, start_size, chrom_name, chrom_length,
gene_start, gene_end, max_linear_size, fillgene)`.

`fi_up` and `fi_down` are the float-log-derived `final_index` values of the
two `make_geom_bins` calls (see `make_geom_bins`). -/
def make_cis_bins (factor : ℚ) (start_size : ℤ) (chrom_name : String)
    (chrom_length gene_start gene_end : ℤ) (max_linear_size : Option ℤ)
    (fillgene : Bool) (fi_up fi_down : ℤ) : Except String (List Bed3) := do
  if factor < 1 then
    throw "factor value is less than 1."
  let upstream_size := gene_start
  let downstream_size := chrom_length - gene_end
  let upstream_edges0 ← make_geom_bins upstream_size start_size factor fi_up
  let upstream_edges1 :=
    match max_linear_size with
    | some m => prune_geom_bins upstream_edges0 m
    | none => upstream_edges0
  let upstream_edges := upstream_edges1.reverse.map (fun e => gene_start - e)
  let upstream_df := (upstream_edges.zip (upstream_edges.drop 1)).map
    (fun p => Bed3.mk chrom_name p.1 p.2)
  let downstream_edges0 ← make_geom_bins downstream_size start_size factor fi_down
  let downstream_edges1 :=
    match max_linear_size with
    | some m => prune_geom_bins downstream_edges0 m
    | none => downstream_edges0
  let downstream_edges := downstream_edges1.map (fun e => gene_end + e)
  let downstream_df := (downstream_edges.zip (downstream_edges.drop 1)).map
    (fun p => Bed3.mk chrom_name p.1 p.2)
  if fillgene then
    return upstream_df ++ [Bed3.mk chrom_name gene_start gene_end] ++ downstream_df
  else
    return upstream_df ++ downstream_df

/-- Modelled from the spec: `GeneCoord` of `bardic.schemas` (the file
`schemas.py` is not under `src/`) — genomic location of one RNA's source
locus: chrom, start, end (the `end` field is called `stop`). -/
structure GeneCoord where
  chrom : String
  start : ℤ
  stop : ℤ
deriving DecidableEq, Repr

/-- Modelled from the spec: `RnaAttrs` of `bardic.schemas` (the file
`schemas.py` is not under `src/`) — per-RNA tunable parameters and derived
counts: cis_factor, trans_bin_size, cis_start, cis_contacts,
trans_contacts. -/
structure RnaAttrs where
  cis_factor : ℚ
  trans_bin_size : ℤ
  cis_start : ℤ
  cis_contacts : ℕ
  trans_contacts : ℕ
deriving DecidableEq, Repr

/-- A bed4 row of the background track. -/
structure BgRow where
  chrom : String
  start : ℤ
  stop : ℤ
  count : ℤ
deriving DecidableEq, Repr

/-- `binops.make_interval_centers`: the 1-bp midpoint
`(start + end) // 2` (Python floor division) of each interval. -/
def make_interval_centers (intervals : List Bed3) : List Bed3 :=
  intervals.map (fun iv =>
    let c := Int.fdiv (iv.start + iv.stop) 2
    ⟨iv.chrom, c, c + 1⟩)

/-- `bf.count_overlaps` for one bin: how many rows of `others` overlap the
half-open interval `b` on the same chromosome. -/
def overlapsCount (others : List Bed3) (b : Bed3) : ℕ :=
  others.countP (fun c => decide (c.chrom = b.chrom ∧ b.start < c.stop ∧ c.start < b.stop))

/-- The background-track rows overlapping bin `b`
(`bf.overlap(..., how="left")` restricted to one input row). -/
def bgMatches (bg : List BgRow) (b : Bed3) : List BgRow :=
  bg.filter (fun r => decide (r.chrom = b.chrom ∧ b.start < r.stop ∧ r.start < b.stop))

/-- The rescaled background count of one bin in `binops.make_subtrack`:
`sum(count_bg) / (max(end_bg) - min(start_bg)) * bin_size`.
`none` models the pandas rows where the left join matched nothing (all
aggregates `NaN`; the subsequent `astype('int64')` would in fact raise) or
where the overlapped span is zero (`inf`/`NaN` after division). -/
def bgRescaled (bg : List BgRow) (b : Bed3) : Option ℚ :=
  let rows := bgMatches bg b
  match (rows.map (·.start)).min?, (rows.map (·.stop)).max? with
  | some mn, some mx =>
      let span := mx - mn
      if span = 0 then none
      else some (((rows.map (·.count)).sum : ℚ) / (span : ℚ) * ((b.stop - b.start : ℤ) : ℚ))
  | _, _ => none

/-- One row of the dataframe produced by `binops.make_subtrack`. -/
structure SubtrackRow where
  chrom : String
  start : ℤ
  stop : ℤ
  signal_count : ℕ
  signal_prob : ℚ
  impute : Bool
  bg_count : Option ℚ
  bg_prob : Option ℚ
deriving DecidableEq, Repr

/-- `binops.make_subtrack(bins_df, centers_df, bg_track, impute, ivalue)`.

* `signal_prob = signal_count / signal_count.sum()`: when the total is 0
  pandas yields `NaN` for every row while `ℚ` yields 0; both conventions
  give the same column sums (pandas sums skip `NaN`).
* `bg_count`: the imputation branch replaces the rescaled count by
  `bin_size * ivalue` exactly on the dropout rows
  `signal_count > 0 ∧ rescaled == 0`; `NaN` compares unequal to 0 in
  pandas, matching `none ≠ some 0` here.  The code's `ValueError` for
  `ivalue is None` is not modelled (`ivalue : ℚ` is always present).
* `bg_prob = bg_count / bg_count.sum()`, the sum taken over non-`NaN`
  entries as pandas does. -/
def make_subtrack (bins centers : List Bed3) (bg_track : List BgRow)
    (impute : Bool) (ivalue : ℚ) : List SubtrackRow :=
  let sigTotal : ℚ := ((bins.map (fun b => overlapsCount centers b)).sum : ℕ)
  let pre := bins.map (fun b =>
    let k := overlapsCount centers b
    let rescaled := bgRescaled bg_track b
    let dropout := impute && decide (0 < k) && decide (rescaled = some 0)
    let bgc := if dropout then some (((b.stop - b.start : ℤ) : ℚ) * ivalue) else rescaled
    SubtrackRow.mk b.chrom b.start b.stop k ((k : ℚ) / sigTotal) dropout bgc none)
  let bgTotal : ℚ := (pre.filterMap (·.bg_count)).sum
  pre.map (fun r => { r with bg_prob := r.bg_count.map (fun v => v / bgTotal) })

/-- One row of the combined track of `binops.make_track`. -/
structure TrackRow where
  chrom : String
  start : ℤ
  stop : ℤ
  signal_count : ℕ
  signal_prob : ℚ
  impute : Bool
  bg_count : Option ℚ
  bg_prob : Option ℚ
  raw_bg_prob : Option ℚ
  scaling_factor : ℚ
deriving DecidableEq, Repr

/-- `coverage['raw_bg_prob'] = coverage['bg_prob']; coverage['scaling_factor'] = 1`. -/
def toTrackRow (r : SubtrackRow) : TrackRow :=
  ⟨r.chrom, r.start, r.stop, r.signal_count, r.signal_prob, r.impute,
   r.bg_count, r.bg_prob, r.bg_prob, 1⟩

/-- The sort order of `bf.sort_bedframe`: by chromosome name
(lexicographically on the character list, which is the string order),
then start, then end. -/
def bedLE (a b : TrackRow) : Prop :=
  a.chrom.data < b.chrom.data ∨
    (a.chrom = b.chrom ∧ (a.start < b.start ∨ (a.start = b.start ∧ a.stop ≤ b.stop)))

instance : DecidableRel bedLE := fun a b => by
  unfold bedLE; infer_instance

/-- `bf.sort_bedframe`. -/
def sort_bedframe (l : List TrackRow) : List TrackRow := l.insertionSort bedLE

/-- `binops.make_track(dna_contacts, bg_track, chromdict, gene_coord,
rna_attrs, impute, ivalue)`.  `fi_up` and `fi_down` are the float-derived
`final_index` parameters of the two geometric-bin constructions inside
`make_cis_bins` (see `make_geom_bins`). -/
def make_track (dna_contacts : List Bed3) (bg_track : List BgRow)
    (chromdict : List (String × ℤ)) (gene_coord : GeneCoord) (rna_attrs : RnaAttrs)
    (impute : Bool) (ivalue : ℚ) (fi_up fi_down : ℤ) :
    Except String (List TrackRow) := do
  let gene_chrom := gene_coord.chrom
  let dna_parts_centers := make_interval_centers dna_contacts
  let trans_bins ← (make_trans_bins rna_attrs.trans_bin_size chromdict gene_chrom).1
  let trans_coverage :=
    (make_subtrack trans_bins dna_parts_centers bg_track impute ivalue).map toTrackRow
  let chrom_length ← match chromdict.lookup gene_chrom with
    | some L => pure L
    | none => throw "KeyError"
  let cis_bins ← make_cis_bins rna_attrs.cis_factor rna_attrs.cis_start gene_chrom
      chrom_length gene_coord.start gene_coord.stop (some rna_attrs.trans_bin_size)
      false fi_up fi_down
  let cis_coverage :=
    (make_subtrack cis_bins dna_parts_centers bg_track impute ivalue).map toTrackRow
  return sort_bedframe (trans_coverage ++ cis_coverage)

/-- Sum of the `signal_prob` column of a track. -/
def signalProbSum (t : List TrackRow) : ℚ := (t.map (·.signal_prob)).sum

/-- Sum of the non-`NaN` entries of the `bg_prob` column of a track. -/
def bgProbSum (t : List TrackRow) : ℚ := (t.filterMap (·.bg_prob)).sum

/-- Total signal count of a bin set: the denominator of `signal_prob`
inside `make_subtrack`. -/
def signalTotal (bins centers : List Bed3) : ℕ :=
  (bins.map (fun b => overlapsCount centers b)).sum

/-- Total (non-`NaN`) `bg_count` of a subtrack: the denominator of
`bg_prob` inside `make_subtrack`. -/
def bgCountTotal (bins centers : List Bed3) (bg : List BgRow)
    (impute : Bool) (ivalue : ℚ) : ℚ :=
  ((make_subtrack bins centers bg impute ivalue).filterMap (·.bg_count)).sum

/-! ## Supporting lemmas: binning engine -/

/-- The edge list of a `make_geom_bins` result (empty on error). -/
def edgesOf (r : Except String (List ℤ)) : List ℤ :=
  match r with
  | .ok l => l
  | .error _ => []

theorem forceLast_getLast? (l : List ℤ) (v : ℤ) :
    (forceLast l v).getLast? = some v := by
  simp [forceLast]

theorem diffs_concat (l : List ℤ) (a : ℤ) (h : l ≠ []) :
    diffs (l ++ [a]) = diffs l ++ [a - l.getLastD 0] := by
  induction l with
  | nil => simp at h
  | cons x t ih =>
    cases t with
    | nil => simp [diffs]
    | cons y t' =>
      have h2 : (y :: t') ≠ [] := by simp
      calc diffs ((x :: y :: t') ++ [a])
          = (y - x) :: diffs ((y :: t') ++ [a]) := by simp [diffs]
        _ = (y - x) :: (diffs (y :: t') ++ [a - (y :: t').getLastD 0]) := by rw [ih h2]
        _ = diffs (x :: y :: t') ++ [a - (x :: y :: t').getLastD 0] := by
            simp [diffs, List.getLastD_cons]

theorem getLastD_map_range (f : ℕ → ℤ) (m : ℕ) :
    ((List.range (m + 1)).map f).getLastD 0 = f m := by
  rw [List.range_succ, List.map_append]
  simp

theorem dropLast_map_range (f : ℕ → ℤ) (m : ℕ) :
    ((List.range (m + 1)).map f).dropLast = (List.range m).map f := by
  rw [List.range_succ, List.map_append]
  simp

theorem diffs_map_mul_range (s : ℤ) :
    ∀ m : ℕ, diffs ((List.range m).map (fun i : ℕ => (i : ℤ) * s)) = List.replicate (m - 1) s := by
  intro m
  induction m with
  | zero => simp [diffs]
  | succ m ih =>
    cases m with
    | zero => simp [diffs]
    | succ k =>
      have hr : List.range (k + 1 + 1) = List.range (k + 1) ++ [k + 1] := by
        apply List.range_succ
      rw [hr, List.map_append, List.map_singleton,
        diffs_concat ((List.range (k + 1)).map (fun i : ℕ => (i : ℤ) * s))
          (((k + 1 : ℕ) : ℤ) * s) (by simp),
        ih, getLastD_map_range]
      have harith : (((k + 1 : ℕ) : ℤ)) * s - (k : ℤ) * s = s := by push_cast; ring
      rw [harith]
      rw [show (k + 1 + 1 - 1) = (k + 1 - 1) + 1 by omega, List.replicate_succ' (k + 1 - 1) s]

theorem pairwiseLt_map_range (f : ℕ → ℤ) (hf : ∀ i j, i < j → f i < f j) (m : ℕ) :
    ((List.range m).map f).Pairwise (· < ·) :=
  (List.pairwise_lt_range m).map f (fun _ _ h => hf _ _ h)

/-- Index bound for `arangeZ`: every produced multiple is below `stop`. -/
theorem arange_index_lt {stop step : ℤ} (hstep : 0 < step) {i : ℕ}
    (hi : i < (stop.toNat + step.toNat - 1) / step.toNat) : (i : ℤ) * step < stop := by
  have hb : 0 < step.toNat := by omega
  have h1 : (i + 1) * step.toNat ≤ stop.toNat + step.toNat - 1 :=
    (Nat.le_div_iff_mul_le hb).mp hi
  rw [Nat.add_mul, Nat.one_mul] at h1
  have h2 : i * step.toNat + 1 ≤ stop.toNat := by omega
  have hstep2 : ((step.toNat : ℤ)) = step := Int.toNat_of_nonneg hstep.le
  have hstop : (stop.toNat : ℤ) ≤ stop := by omega
  calc (i : ℤ) * step = ((i * step.toNat : ℕ) : ℤ) := by push_cast [hstep2]; ring
    _ < (stop.toNat : ℤ) := by exact_mod_cast h2
    _ ≤ stop := hstop

theorem arange_length_two_le {stop step : ℤ} (hstep : 0 < step) (hlt : step < stop) :
    2 ≤ (stop.toNat + step.toNat - 1) / step.toNat := by
  have hb : 0 < step.toNat := by omega
  rw [Nat.le_div_iff_mul_le hb]
  omega

theorem geomSum_succ (f : ℚ) (n : ℕ) : geomSum f (n + 1) = geomSum f n + f ^ n := by
  simp [geomSum, List.range_succ]

theorem geomSum_one (f : ℚ) : geomSum f 1 = 1 := by
  rw [geomSum_succ]
  simp [geomSum]

/-- Entry `k` of the geometric cumulative sum. -/
def geomCumEntry (start_size : ℤ) (f : ℚ) (k : ℕ) : ℤ :=
  ⌊(start_size : ℚ) * geomSum f (k + 1)⌋

theorem geomCumsum_eq_map (start_size : ℤ) (f : ℚ) (n : ℕ) :
    geomCumsum start_size f n = (List.range n).map (geomCumEntry start_size f) := rfl

theorem geomCumEntry_zero {start_size : ℤ} {f : ℚ} :
    geomCumEntry start_size f 0 = start_size := by
  simp [geomCumEntry, geomSum_one]

theorem geomCumEntry_strict {start_size : ℤ} {f : ℚ}
    (hs : 1 ≤ start_size) (hf : 1 ≤ f) (k : ℕ) :
    geomCumEntry start_size f k + start_size ≤ geomCumEntry start_size f (k + 1) := by
  have hpow : (1 : ℚ) ≤ f ^ (k + 1) := one_le_pow₀ hf
  have hs0 : (0 : ℚ) ≤ (start_size : ℚ) := by
    exact_mod_cast (by omega : (0 : ℤ) ≤ start_size)
  have h1 : (start_size : ℚ) * geomSum f (k + 1) + (start_size : ℚ) ≤
      (start_size : ℚ) * geomSum f (k + 2) := by
    rw [geomSum_succ f (k + 1), mul_add]
    have : (start_size : ℚ) * 1 ≤ (start_size : ℚ) * f ^ (k + 1) :=
      mul_le_mul_of_nonneg_left hpow hs0
    linarith
  calc geomCumEntry start_size f k + start_size
      = ⌊(start_size : ℚ) * geomSum f (k + 1) + (start_size : ℤ)⌋ :=
        (Int.floor_add_int _ _).symm
    _ ≤ ⌊(start_size : ℚ) * geomSum f (k + 2)⌋ := Int.floor_le_floor h1
    _ = geomCumEntry start_size f (k + 1) := rfl

theorem geomCumEntry_mono {start_size : ℤ} {f : ℚ}
    (hs : 1 ≤ start_size) (hf : 1 ≤ f) : StrictMono (geomCumEntry start_size f) := by
  apply strictMono_nat_of_lt_succ
  intro k
  have := geomCumEntry_strict hs hf k
  omega

theorem dropLast_cons_of_ne_nil (x : ℤ) (C : List ℤ) (h : C ≠ []) :
    (x :: C).dropLast = x :: C.dropLast := by
  cases C with
  | nil => simp at h
  | cons y t => rfl

/-! ## Claims C4 and C3: geometric bins and pruning -/

/-- C4 (counterexample): `make_geom_bins(20, 50, 1)` returns the single
edge `[20]`, which does not start at 0 and yields no bin at all, refuting
the claim that for every `L > 0`, `s > 0`, `f ≥ 1` the edges form a
strictly increasing sequence starting at 0 and ending at `L`. -/
theorem make_geom_bins_counterexample :
    make_geom_bins 20 50 1 0 = Except.ok [20] ∧
    (edgesOf (make_geom_bins 20 50 1 0)).head? ≠ some 0 := by
  have h1 : ¬ ((1 : ℚ) < 1) := lt_irrefl 1
  constructor <;> simp only [make_geom_bins, if_neg h1, if_pos rfl, edgesOf] <;> decide

/-- C4 (amended): `make_geom_bins(length, start_size, factor)` fails with
an invalid-argument error for `factor < 1`; otherwise its result always
ends exactly at `length`.  For `factor = 1` with `0 < start_size < length`
it degenerates to fixed-width bins: the edges start at 0, strictly
increase, and all bin widths except the last equal `start_size`.  For
`factor > 1` (with `start_size ≥ 1`) the edges start at 0 and strictly
increase whenever the float-derived `final_index` is nonnegative and every
edge before the forced last one lies below `length`; the original claim
fails when the computed edge array has fewer than two entries (e.g.
`length ≤ start_size`), where the result degenerates to the single edge
`[length]`. -/
theorem make_geom_bins_amended (length start_size : ℤ) (factor : ℚ) (final_index : ℤ) :
    (factor < 1 →
      make_geom_bins length start_size factor final_index =
        Except.error "factor value is less than 1.") ∧
    (¬ factor < 1 →
      (edgesOf (make_geom_bins length start_size factor final_index)).getLast? = some length) ∧
    (factor = 1 → 0 < start_size → start_size < length →
      (edgesOf (make_geom_bins length start_size factor final_index)).head? = some 0 ∧
      List.Chain' (· < ·) (edgesOf (make_geom_bins length start_size factor final_index)) ∧
      ∀ w ∈ (diffs (edgesOf (make_geom_bins length start_size factor final_index))).dropLast,
        w = start_size) ∧
    (1 < factor → 1 ≤ start_size → 0 ≤ final_index →
      (∀ x ∈ ((0 : ℤ) :: geomCumsum start_size factor (final_index + 1).toNat).dropLast,
        x < length) →
      (edgesOf (make_geom_bins length start_size factor final_index)).head? = some 0 ∧
      List.Chain' (· < ·) (edgesOf (make_geom_bins length start_size factor final_index))) := by
  refine ⟨?_, ?_, ?_, ?_⟩
  · intro h
    simp [make_geom_bins, if_pos h]
  · intro h
    by_cases h1 : factor = 1
    · simp only [make_geom_bins, if_neg h, if_pos h1, edgesOf]
      exact forceLast_getLast? _ _
    · simp only [make_geom_bins, if_neg h, if_neg h1, edgesOf]
      exact forceLast_getLast? _ _
  · intro h1 hs hlt
    have hnot : ¬ factor < 1 := by rw [h1]; exact lt_irrefl 1
    simp only [make_geom_bins, if_neg hnot, if_pos h1, edgesOf]
    obtain ⟨m, hm⟩ : ∃ m, (length.toNat + start_size.toNat - 1) / start_size.toNat = m + 1 + 1 := by
      have := arange_length_two_le hs hlt
      exact ⟨(length.toNat + start_size.toNat - 1) / start_size.toNat - 2, by omega⟩
    have harr : arangeZ length start_size =
        (List.range (m + 1 + 1)).map (fun i : ℕ => (i : ℤ) * start_size) := by
      rw [arangeZ, hm]
    have hes : forceLast (arangeZ length start_size) length =
        (List.range (m + 1)).map (fun i : ℕ => (i : ℤ) * start_size) ++ [length] := by
      rw [harr, forceLast, dropLast_map_range]
    have hmemlt : ∀ x ∈ (List.range (m + 1)).map (fun i : ℕ => (i : ℤ) * start_size),
        x < length := by
      intro x hx
      rcases List.mem_map.mp hx with ⟨i, hi, rfl⟩
      rw [List.mem_range] at hi
      exact arange_index_lt hs (by rw [hm]; omega)
    refine ⟨?_, ?_, ?_⟩
    · rw [hes, List.range_succ_eq_map]
      simp
    · rw [hes]
      apply List.chain'_iff_pairwise.mpr
      rw [List.pairwise_append]
      refine ⟨pairwiseLt_map_range _ (fun i j hij => ?_) (m + 1),
        List.pairwise_singleton _ _, ?_⟩
      · have : (i : ℤ) < (j : ℤ) := by exact_mod_cast hij
        exact mul_lt_mul_of_pos_right this hs
      · intro x hx y hy
        rw [List.mem_singleton] at hy
        subst hy
        exact hmemlt x hx
    · intro w hw
      rw [hes, diffs_concat _ _ (by simp), diffs_map_mul_range,
        List.dropLast_concat] at hw
      exact List.eq_of_mem_replicate hw
  · intro hf hs hfi hv
    have hnot : ¬ factor < 1 := not_lt.mpr hf.le
    have hne : ¬ factor = 1 := fun h => absurd (h ▸ hf) (lt_irrefl 1)
    simp only [make_geom_bins, if_neg hnot, if_neg hne, edgesOf]
    have hC : geomCumsum start_size factor (final_index + 1).toNat ≠ [] := by
      rw [geomCumsum_eq_map]
      simp only [ne_eq, List.map_eq_nil_iff, List.range_eq_nil]
      omega
    have hdrop : ((0 : ℤ) :: geomCumsum start_size factor (final_index + 1).toNat).dropLast =
        0 :: (geomCumsum start_size factor (final_index + 1).toNat).dropLast :=
      dropLast_cons_of_ne_nil _ _ hC
    have hp0C : ((0 : ℤ) :: geomCumsum start_size factor (final_index + 1).toNat).Pairwise
        (· < ·) := by
      rw [geomCumsum_eq_map]
      refine List.pairwise_cons.mpr ⟨?_, pairwiseLt_map_range _
        (fun i j hij => geomCumEntry_mono hs hf.le hij) _⟩
      intro y hy
      rcases List.mem_map.mp hy with ⟨k, _, rfl⟩
      have h0 : geomCumEntry start_size factor 0 ≤ geomCumEntry start_size factor k :=
        (geomCumEntry_mono hs hf.le).monotone (Nat.zero_le k)
      rw [geomCumEntry_zero] at h0
      omega
    constructor
    · rw [forceLast, hdrop]
      simp
    · rw [forceLast]
      apply List.chain'_iff_pairwise.mpr
      rw [List.pairwise_append]
      refine ⟨hp0C.sublist (List.dropLast_sublist _), List.pairwise_singleton _ _, ?_⟩
      intro x hx y hy
      rw [List.mem_singleton] at hy
      subst hy
      exact hv x hx

/-- Witness for `make_geom_bins_amended` at concrete inputs: the error
branch at factor 1/2, the fixed-width branch at (100, 30, 1), and the
geometric branch at (100, 10, 2) with `final_index = 2`. -/
theorem make_geom_bins_amended_witness :
    make_geom_bins 100 30 (1/2) 0 = Except.error "factor value is less than 1." ∧
    (edgesOf (make_geom_bins 100 30 1 0)).head? = some 0 ∧
    List.Chain' (· < ·) (edgesOf (make_geom_bins 100 10 2 2)) := by
  have hc : geomCumsum 10 2 3 = [10, 30, 70] := by
    simp [geomCumsum, List.range_succ, geomSum]
    norm_num
  refine ⟨(make_geom_bins_amended 100 30 (1/2) 0).1 (by norm_num),
    ((make_geom_bins_amended 100 30 1 0).2.2.1 rfl (by norm_num) (by norm_num)).1,
    ((make_geom_bins_amended 100 10 2 2).2.2.2 (by norm_num) (by norm_num) (by norm_num) ?_).2⟩
  rw [show ((2 : ℤ) + 1).toNat = 3 by decide, hc]
  decide

/-- C3 (code bug): on `make_geom_bins(100, 30, 1) = [0, 30, 60, 100]` with
`max_linear_size = 35`, `prune_geom_bins` returns `[0, 30, 60, 100]`,
whose trailing bin has width 40 > 35 — the fill is not made of bins of
exactly `max_linear_size` and the trailing bin is wider, not shorter,
because the code overwrites the last fill edge with the chromosome end
instead of appending it.  On `make_geom_bins(105, 10, 2) = [0, 10, 30, 70,
105]` (float `final_index = 3`) with `max_linear_size = 35` it even
returns `[0, 10, 30, 70]`, leaving the span `[70, 105)` uncovered. -/
theorem prune_geom_bins_bug :
    make_geom_bins 100 30 1 0 = Except.ok [0, 30, 60, 100] ∧
    prune_geom_bins [0, 30, 60, 100] 35 = [0, 30, 60, 100] ∧
    ¬ (∀ w ∈ diffs (prune_geom_bins [0, 30, 60, 100] 35), w ≤ 35) ∧
    make_geom_bins 105 10 2 3 = Except.ok [0, 10, 30, 70, 105] ∧
    prune_geom_bins [0, 10, 30, 70, 105] 35 = [0, 10, 30, 70] ∧
    (prune_geom_bins [0, 10, 30, 70, 105] 35).getLast? ≠ some 105 := by
  have h1 : ¬ ((1 : ℚ) < 1) := lt_irrefl 1
  have h2 : ¬ ((2 : ℚ) < 1) := by norm_num
  have h3 : ¬ ((2 : ℚ) = 1) := by norm_num
  have hc : geomCumsum 10 2 4 = [10, 30, 70, 150] := by
    simp [geomCumsum, List.range_succ, geomSum]
    norm_num
  refine ⟨?_, by decide, by decide, ?_, by decide, by decide⟩
  · simp only [make_geom_bins, if_neg h1, if_pos rfl]
    decide
  · simp only [make_geom_bins, if_neg h2, if_neg h3]
    rw [show ((3 : ℤ) + 1).toNat = 4 by decide, hc]
    decide

/-! ## Claim C10: frame property of `make_trans_bins` -/

/-- C10: for a chromsizes dictionary containing the gene chromosome,
`make_trans_bins` leaves the caller's dictionary unchanged (it deletes the
gene chromosome only from an internal copy) and its result equals
`make_linear_bins` applied to the dictionary minus the gene chromosome. -/
theorem make_trans_bins_frame (bin_size : ℤ) (chromsizes : List (String × ℤ))
    (gene_chrom : String) (h : (chromsizes.lookup gene_chrom).isSome) :
    (make_trans_bins bin_size chromsizes gene_chrom).2 = chromsizes ∧
    (make_trans_bins bin_size chromsizes gene_chrom).1 =
      Except.ok (make_linear_bins bin_size
        (chromsizes.filter (fun p => p.1 ≠ gene_chrom))) := by
  refine ⟨?_, ?_⟩
  · simp only [make_trans_bins]
    cases h2 : dictDel (dictCopy chromsizes) gene_chrom <;> simp [h2]
  · simp only [make_trans_bins, dictCopy, dictDel, if_pos h]

/-- Witness for `make_trans_bins_frame` on a two-chromosome dictionary. -/
theorem make_trans_bins_frame_witness :
    (make_trans_bins 100 [("chrA", 100), ("chrB", 100)] "chrA").2 =
      [("chrA", 100), ("chrB", 100)] ∧
    (make_trans_bins 100 [("chrA", 100), ("chrB", 100)] "chrA").1 =
      Except.ok (make_linear_bins 100
        ([("chrA", (100 : ℤ)), ("chrB", 100)].filter (fun p => p.1 ≠ "chrA"))) :=
  make_trans_bins_frame 100 [("chrA", 100), ("chrB", 100)] "chrA" (by decide)

/-! ## Claims C1 and C8: track construction and normalization -/

theorem sum_map_div (l : List ℚ) (c : ℚ) : (l.map (fun x => x / c)).sum = l.sum / c := by
  induction l with
  | nil => simp
  | cons a t ih => simp [ih, add_div]

theorem map_signal_of_update (pre : List SubtrackRow) (T : ℚ) :
    ((pre.map (fun r => { r with bg_prob := r.bg_count.map (fun v => v / T) })).map
      (fun r => r.signal_prob)) = pre.map (fun r => r.signal_prob) := by
  rw [List.map_map]
  rfl

theorem filterMap_bg_prob_of_update (pre : List SubtrackRow) (T : ℚ) :
    ((pre.map (fun r => { r with bg_prob := r.bg_count.map (fun v => v / T) })).filterMap
      (fun r => r.bg_prob)) = (pre.filterMap (fun r => r.bg_count)).map (fun v => v / T) := by
  rw [List.filterMap_map, List.map_filterMap]
  rfl

theorem filterMap_bg_count_of_update (pre : List SubtrackRow) (T : ℚ) :
    ((pre.map (fun r => { r with bg_prob := r.bg_count.map (fun v => v / T) })).filterMap
      (fun r => r.bg_count)) = pre.filterMap (fun r => r.bg_count) := by
  rw [List.filterMap_map]
  rfl

theorem sum_counts_div (bins : List Bed3) (cnt : Bed3 → ℕ) (T : ℚ)
    (hT : T = (((bins.map cnt).sum : ℕ) : ℚ)) (h0 : T ≠ 0) :
    (bins.map (fun b => ((cnt b : ℕ) : ℚ) / T)).sum = 1 := by
  have e1 : bins.map (fun b => ((cnt b : ℕ) : ℚ) / T) =
      (bins.map (fun b => ((cnt b : ℕ) : ℚ))).map (fun x => x / T) := by
    rw [List.map_map]
    rfl
  have e2 : (bins.map (fun b => ((cnt b : ℕ) : ℚ))).sum = (((bins.map cnt).sum : ℕ) : ℚ) := by
    rw [Nat.cast_list_sum, List.map_map]
    rfl
  rw [e1, sum_map_div, e2, ← hT]
  exact div_self h0

/-- The `signal_prob` column of one subtrack sums to 1 whenever the
subtrack's total signal count is nonzero. -/
theorem make_subtrack_signal_prob_sum (bins centers : List Bed3) (bg : List BgRow)
    (impute : Bool) (ivalue : ℚ) (h : signalTotal bins centers ≠ 0) :
    ((make_subtrack bins centers bg impute ivalue).map (fun r => r.signal_prob)).sum = 1 := by
  simp only [make_subtrack]
  rw [map_signal_of_update, List.map_map]
  show (bins.map (fun b => ((overlapsCount centers b : ℕ) : ℚ) /
    (((bins.map (fun b => overlapsCount centers b)).sum : ℕ) : ℚ))).sum = 1
  exact sum_counts_div bins (fun b => overlapsCount centers b) _ rfl
    (Nat.cast_ne_zero.mpr h)

/-- The non-`NaN` entries of the `bg_prob` column of one subtrack sum to 1
whenever the subtrack's total background count is nonzero. -/
theorem make_subtrack_bg_prob_sum (bins centers : List Bed3) (bg : List BgRow)
    (impute : Bool) (ivalue : ℚ) (h : bgCountTotal bins centers bg impute ivalue ≠ 0) :
    ((make_subtrack bins centers bg impute ivalue).filterMap (fun r => r.bg_prob)).sum = 1 := by
  simp only [bgCountTotal, make_subtrack] at h ⊢
  rw [filterMap_bg_count_of_update] at h
  rw [filterMap_bg_prob_of_update, sum_map_div]
  exact div_self h

theorem except_ok_bind {α β : Type} (a : α) (f : α → Except String β) :
    (Except.ok a : Except String α) >>= f = f a := rfl

theorem except_pure_bind {α β : Type} (a : α) (f : α → Except String β) :
    (pure a : Except String α) >>= f = f a := rfl

/-- Under the hypotheses that the trans bins, the gene chromosome lookup
and the cis bins succeed, `make_track` returns the sorted concatenation of
the two subtracks. -/
theorem make_track_eq
    (dna_contacts : List Bed3) (bg_track : List BgRow) (chromdict : List (String × ℤ))
    (gene_coord : GeneCoord) (rna_attrs : RnaAttrs) (impute : Bool) (ivalue : ℚ)
    (fi_up fi_down : ℤ) (tb cb : List Bed3) (L : ℤ)
    (htb : (make_trans_bins rna_attrs.trans_bin_size chromdict gene_coord.chrom).1 =
      Except.ok tb)
    (hL : chromdict.lookup gene_coord.chrom = some L)
    (hcb : make_cis_bins rna_attrs.cis_factor rna_attrs.cis_start gene_coord.chrom L
      gene_coord.start gene_coord.stop (some rna_attrs.trans_bin_size) false fi_up fi_down =
      Except.ok cb) :
    make_track dna_contacts bg_track chromdict gene_coord rna_attrs impute ivalue
      fi_up fi_down =
    Except.ok (sort_bedframe
      ((make_subtrack tb (make_interval_centers dna_contacts) bg_track impute ivalue).map
        toTrackRow ++
       (make_subtrack cb (make_interval_centers dna_contacts) bg_track impute ivalue).map
        toTrackRow)) := by
  simp only [make_track, htb, hL, hcb, except_ok_bind, except_pure_bind]
  rfl

/-- C1 (amended): `signal_prob` and `bg_prob` are normalized within each
subtrack separately: each of the trans and the cis subtrack sums to 1 when
its own total is nonzero, so the whole-RNA sums over the `make_track`
output equal 2 (not 1) whenever both subtracks carry signal resp.
background. -/
theorem make_track_prob_sums
    (dna_contacts : List Bed3) (bg_track : List BgRow) (chromdict : List (String × ℤ))
    (gene_coord : GeneCoord) (rna_attrs : RnaAttrs) (impute : Bool) (ivalue : ℚ)
    (fi_up fi_down : ℤ) (tb cb : List Bed3) (L : ℤ)
    (htb : (make_trans_bins rna_attrs.trans_bin_size chromdict gene_coord.chrom).1 =
      Except.ok tb)
    (hL : chromdict.lookup gene_coord.chrom = some L)
    (hcb : make_cis_bins rna_attrs.cis_factor rna_attrs.cis_start gene_coord.chrom L
      gene_coord.start gene_coord.stop (some rna_attrs.trans_bin_size) false fi_up fi_down =
      Except.ok cb) :
    (signalTotal tb (make_interval_centers dna_contacts) ≠ 0 →
     signalTotal cb (make_interval_centers dna_contacts) ≠ 0 →
     (make_track dna_contacts bg_track chromdict gene_coord rna_attrs impute ivalue
        fi_up fi_down).map signalProbSum = Except.ok 2) ∧
    (bgCountTotal tb (make_interval_centers dna_contacts) bg_track impute ivalue ≠ 0 →
     bgCountTotal cb (make_interval_centers dna_contacts) bg_track impute ivalue ≠ 0 →
     (make_track dna_contacts bg_track chromdict gene_coord rna_attrs impute ivalue
        fi_up fi_down).map bgProbSum = Except.ok 2) := by
  rw [make_track_eq dna_contacts bg_track chromdict gene_coord rna_attrs impute ivalue
    fi_up fi_down tb cb L htb hL hcb]
  have hperm :
      (sort_bedframe
        ((make_subtrack tb (make_interval_centers dna_contacts) bg_track impute ivalue).map
          toTrackRow ++
         (make_subtrack cb (make_interval_centers dna_contacts) bg_track impute ivalue).map
          toTrackRow)).Perm
        ((make_subtrack tb (make_interval_centers dna_contacts) bg_track impute ivalue).map
          toTrackRow ++
         (make_subtrack cb (make_interval_centers dna_contacts) bg_track impute ivalue).map
          toTrackRow) := List.perm_insertionSort _ _
  constructor
  · intro h1 h2
    have hsum : signalProbSum (sort_bedframe
        ((make_subtrack tb (make_interval_centers dna_contacts) bg_track impute ivalue).map
          toTrackRow ++
         (make_subtrack cb (make_interval_centers dna_contacts) bg_track impute ivalue).map
          toTrackRow)) = 2 := by
      unfold signalProbSum
      rw [(hperm.map (fun r : TrackRow => r.signal_prob)).sum_eq, List.map_append,
        List.sum_append, List.map_map, List.map_map]
      have eA : ((make_subtrack tb (make_interval_centers dna_contacts) bg_track impute
          ivalue).map ((fun r : TrackRow => r.signal_prob) ∘ toTrackRow)).sum = 1 := by
        rw [show ((fun r : TrackRow => r.signal_prob) ∘ toTrackRow) =
          (fun r : SubtrackRow => r.signal_prob) from rfl]
        exact make_subtrack_signal_prob_sum _ _ _ _ _ h1
      have eB : ((make_subtrack cb (make_interval_centers dna_contacts) bg_track impute
          ivalue).map ((fun r : TrackRow => r.signal_prob) ∘ toTrackRow)).sum = 1 := by
        rw [show ((fun r : TrackRow => r.signal_prob) ∘ toTrackRow) =
          (fun r : SubtrackRow => r.signal_prob) from rfl]
        exact make_subtrack_signal_prob_sum _ _ _ _ _ h2
      rw [eA, eB]
      norm_num
    rw [show ∀ t : List TrackRow, (Except.ok t : Except String (List TrackRow)).map
      signalProbSum = Except.ok (signalProbSum t) from fun _ => rfl, hsum]
  · intro h3 h4
    have hsum : bgProbSum (sort_bedframe
        ((make_subtrack tb (make_interval_centers dna_contacts) bg_track impute ivalue).map
          toTrackRow ++
         (make_subtrack cb (make_interval_centers dna_contacts) bg_track impute ivalue).map
          toTrackRow)) = 2 := by
      unfold bgProbSum
      rw [(hperm.filterMap (fun r : TrackRow => r.bg_prob)).sum_eq, List.filterMap_append,
        List.sum_append, List.filterMap_map, List.filterMap_map]
      have eA : ((make_subtrack tb (make_interval_centers dna_contacts) bg_track impute
          ivalue).filterMap ((fun r : TrackRow => r.bg_prob) ∘ toTrackRow)).sum = 1 := by
        rw [show ((fun r : TrackRow => r.bg_prob) ∘ toTrackRow) =
          (fun r : SubtrackRow => r.bg_prob) from rfl]
        exact make_subtrack_bg_prob_sum _ _ _ _ _ h3
      have eB : ((make_subtrack cb (make_interval_centers dna_contacts) bg_track impute
          ivalue).filterMap ((fun r : TrackRow => r.bg_prob) ∘ toTrackRow)).sum = 1 := by
        rw [show ((fun r : TrackRow => r.bg_prob) ∘ toTrackRow) =
          (fun r : SubtrackRow => r.bg_prob) from rfl]
        exact make_subtrack_bg_prob_sum _ _ _ _ _ h4
      rw [eA, eB]
      norm_num
    rw [show ∀ t : List TrackRow, (Except.ok t : Except String (List TrackRow)).map
      bgProbSum = Except.ok (bgProbSum t) from fun _ => rfl, hsum]

/-- Concrete run: trans bins for a two-chromosome genome with the gene on
`chrA` and `trans_bin_size = 100`. -/
theorem ex_trans_bins :
    (make_trans_bins (100 : ℤ) [("chrA", 100), ("chrB", 100)] "chrA").1 =
      Except.ok [⟨"chrB", 0, 100⟩] := by decide

/-- Concrete run: chromosome lookup. -/
theorem ex_lookup :
    List.lookup "chrA" [("chrA", (100 : ℤ)), ("chrB", 100)] = some 100 := by decide

/-- Concrete run: cis bins around the gene `[40, 60)` with factor 1 and
start size 20. -/
theorem ex_cis_bins :
    make_cis_bins 1 20 "chrA" 100 40 60 (some 100) false 0 0 =
      Except.ok [⟨"chrA", 0, 40⟩, ⟨"chrA", 60, 100⟩] := by
  have h1 : ¬ ((1 : ℚ) < 1) := lt_irrefl 1
  simp only [make_cis_bins, make_geom_bins, if_neg h1, if_pos rfl, except_ok_bind,
    except_pure_bind]
  decide

/-- Concrete run: contact centers. -/
theorem ex_centers :
    make_interval_centers [⟨"chrA", 10, 12⟩, ⟨"chrB", 50, 52⟩] =
      [⟨"chrA", 11, 12⟩, ⟨"chrB", 51, 52⟩] := by decide

/-- Concrete run: the trans subtrack. -/
theorem ex_trans_cov :
    make_subtrack [⟨"chrB", 0, 100⟩] [⟨"chrA", 11, 12⟩, ⟨"chrB", 51, 52⟩]
      [⟨"chrA", 0, 100, 5⟩, ⟨"chrB", 0, 100, 5⟩] false 0 =
      [⟨"chrB", 0, 100, 1, 1, false, some 5, some 1⟩] := by
  simp [make_subtrack, overlapsCount, bgMatches, bgRescaled]

/-- Concrete run: the cis subtrack. -/
theorem ex_cis_cov :
    make_subtrack [⟨"chrA", 0, 40⟩, ⟨"chrA", 60, 100⟩] [⟨"chrA", 11, 12⟩, ⟨"chrB", 51, 52⟩]
      [⟨"chrA", 0, 100, 5⟩, ⟨"chrB", 0, 100, 5⟩] false 0 =
      [⟨"chrA", 0, 40, 1, 1, false, some 2, some (1/2)⟩,
       ⟨"chrA", 60, 100, 0, 0, false, some 2, some (1/2)⟩] := by
  simp [make_subtrack, overlapsCount, bgMatches, bgRescaled]
  all_goals norm_num

/-- C1 (counterexample): one RNA on a two-chromosome genome with one
contact in cis and one in trans; the full `make_track` output has
`signal_prob` summing to 2, not 1, because the normalization is applied
separately to the trans and the cis subtrack. -/
theorem make_track_sum_counterexample :
    (make_track [⟨"chrA", 10, 12⟩, ⟨"chrB", 50, 52⟩]
       [⟨"chrA", 0, 100, 5⟩, ⟨"chrB", 0, 100, 5⟩]
       [("chrA", 100), ("chrB", 100)]
       ⟨"chrA", 40, 60⟩ ⟨1, 100, 20, 1, 1⟩ false 0 0 0).map signalProbSum =
      Except.ok 2 ∧
    (2 : ℚ) ≠ 1 := by
  constructor
  · rw [make_track_eq _ _ _ _ _ _ _ _ _ [⟨"chrB", 0, 100⟩]
      [⟨"chrA", 0, 40⟩, ⟨"chrA", 60, 100⟩] 100 ex_trans_bins ex_lookup ex_cis_bins,
      ex_centers, ex_trans_cov, ex_cis_cov]
    have h21 : bedLE ⟨"chrA", 0, 40, 1, 1, false, some 2, some (1/2), some (1/2), 1⟩
        ⟨"chrA", 60, 100, 0, 0, false, some 2, some (1/2), some (1/2), 1⟩ := by decide
    have hBA1 : ¬ bedLE ⟨"chrB", 0, 100, 1, 1, false, some 5, some 1, some 1, 1⟩
        ⟨"chrA", 0, 40, 1, 1, false, some 2, some (1/2), some (1/2), 1⟩ := by decide
    have hBA2 : ¬ bedLE ⟨"chrB", 0, 100, 1, 1, false, some 5, some 1, some 1, 1⟩
        ⟨"chrA", 60, 100, 0, 0, false, some 2, some (1/2), some (1/2), 1⟩ := by decide
    simp only [List.map_cons, List.map_nil, toTrackRow, List.cons_append, List.nil_append]
    simp only [sort_bedframe, List.insertionSort, List.orderedInsert, h21, hBA1, hBA2,
      if_true, if_false, eq_self_iff_true, not_false_iff]
    simp only [Except.map, signalProbSum, List.map_cons, List.map_nil, List.sum_cons,
      List.sum_nil]
    norm_num
  · norm_num

/-- Witness for `make_track_prob_sums` at the same concrete input. -/
theorem make_track_prob_sums_witness :
    (make_track [⟨"chrA", 10, 12⟩, ⟨"chrB", 50, 52⟩]
       [⟨"chrA", 0, 100, 5⟩, ⟨"chrB", 0, 100, 5⟩]
       [("chrA", 100), ("chrB", 100)]
       ⟨"chrA", 40, 60⟩ ⟨1, 100, 20, 1, 1⟩ false 0 0 0).map signalProbSum =
      Except.ok 2 ∧
    (make_track [⟨"chrA", 10, 12⟩, ⟨"chrB", 50, 52⟩]
       [⟨"chrA", 0, 100, 5⟩, ⟨"chrB", 0, 100, 5⟩]
       [("chrA", 100), ("chrB", 100)]
       ⟨"chrA", 40, 60⟩ ⟨1, 100, 20, 1, 1⟩ false 0 0 0).map bgProbSum =
      Except.ok 2 := by
  have h3 : bgCountTotal [⟨"chrB", 0, 100⟩]
      (make_interval_centers [⟨"chrA", 10, 12⟩, ⟨"chrB", 50, 52⟩])
      [⟨"chrA", 0, 100, 5⟩, ⟨"chrB", 0, 100, 5⟩] false 0 ≠ 0 := by
    rw [ex_centers]
    simp only [bgCountTotal, ex_trans_cov]
    norm_num [List.filterMap_cons, List.filterMap_nil]
  have h4 : bgCountTotal [⟨"chrA", 0, 40⟩, ⟨"chrA", 60, 100⟩]
      (make_interval_centers [⟨"chrA", 10, 12⟩, ⟨"chrB", 50, 52⟩])
      [⟨"chrA", 0, 100, 5⟩, ⟨"chrB", 0, 100, 5⟩] false 0 ≠ 0 := by
    rw [ex_centers]
    simp only [bgCountTotal, ex_cis_cov]
    norm_num [List.filterMap_cons, List.filterMap_nil]
  exact ⟨(make_track_prob_sums _ _ _ _ _ _ _ _ _ _ _ _
      ex_trans_bins ex_lookup ex_cis_bins).1 (by rw [ex_centers]; decide)
      (by rw [ex_centers]; decide),
    (make_track_prob_sums _ _ _ _ _ _ _ _ _ _ _ _
      ex_trans_bins ex_lookup ex_cis_bins).2 h3 h4⟩

/-- C8: with imputation enabled, `make_subtrack` marks `impute = true`
exactly on the rows with positive signal count and rescaled background
count equal to 0, replacing their `bg_count` by `bin_width * ivalue`;
every other row keeps the rescaled background count (including the `NaN`
rows, modelled as `none`, which compare unequal to 0 exactly as in
pandas). -/
theorem make_subtrack_impute_rule (bins centers : List Bed3) (bg : List BgRow) (ivalue : ℚ)
    (i : ℕ) (b : Bed3) (row : SubtrackRow)
    (hb : bins[i]? = some b)
    (hrow : (make_subtrack bins centers bg true ivalue)[i]? = some row) :
    (row.impute = true ↔ (0 < overlapsCount centers b ∧ bgRescaled bg b = some 0)) ∧
    row.bg_count = if 0 < overlapsCount centers b ∧ bgRescaled bg b = some 0
      then some (((b.stop - b.start : ℤ) : ℚ) * ivalue) else bgRescaled bg b := by
  simp only [make_subtrack] at hrow
  rw [List.getElem?_map, List.getElem?_map, hb, Option.map_some', Option.map_some'] at hrow
  have hr := (Option.some.inj hrow).symm
  subst hr
  constructor
  · simp [Bool.and_eq_true, decide_eq_true_eq]
  · by_cases hd : 0 < overlapsCount centers b ∧ bgRescaled bg b = some 0
    · rw [if_pos hd]
      simp [hd.1, hd.2]
    · rw [if_neg hd]
      rw [Classical.not_and_iff_or_not_not] at hd
      rcases hd with hd | hd <;> simp [hd]

/-- Witness for `make_subtrack_impute_rule`: a single bin with one contact
and a zero-count background produces an imputed row with
`bg_count = 10 * 3 = 30`. -/
theorem make_subtrack_impute_rule_witness :
    ∃ row : SubtrackRow,
      (make_subtrack [⟨"chrA", 0, 10⟩] [⟨"chrA", 5, 6⟩] [⟨"chrA", 0, 100, 0⟩] true 3)[0]? =
        some row ∧
      (row.impute = true ↔ (0 < overlapsCount [⟨"chrA", 5, 6⟩] ⟨"chrA", 0, 10⟩ ∧
        bgRescaled [⟨"chrA", 0, 100, 0⟩] ⟨"chrA", 0, 10⟩ = some 0)) ∧
      row.bg_count = if 0 < overlapsCount [⟨"chrA", 5, 6⟩] ⟨"chrA", 0, 10⟩ ∧
          bgRescaled [⟨"chrA", 0, 100, 0⟩] ⟨"chrA", 0, 10⟩ = some 0
        then some ((((⟨"chrA", 0, 10⟩ : Bed3).stop - (⟨"chrA", 0, 10⟩ : Bed3).start : ℤ) : ℚ) * 3)
        else bgRescaled [⟨"chrA", 0, 100, 0⟩] ⟨"chrA", 0, 10⟩ := by
  have he : make_subtrack [⟨"chrA", 0, 10⟩] [⟨"chrA", 5, 6⟩] [⟨"chrA", 0, 100, 0⟩] true 3 =
      [⟨"chrA", 0, 10, 1, 1, true, some 30, some 1⟩] := by
    simp [make_subtrack, overlapsCount, bgMatches, bgRescaled]
    all_goals norm_num
  have hrow : (make_subtrack [⟨"chrA", 0, 10⟩] [⟨"chrA", 5, 6⟩] [⟨"chrA", 0, 100, 0⟩]
      true 3)[0]? = some ⟨"chrA", 0, 10, 1, 1, true, some 30, some 1⟩ := by
    rw [he]
    rfl
  exact ⟨_, hrow, make_subtrack_impute_rule _ _ _ _ 0 _ _ (by decide) hrow⟩

/-! ## The hierarchical contact stores (`api/formats.py`)

The HDF5 files behind `DnaDataset` (raw contacts) and `Rdc` (pixel
statistics) are modelled as association lists of named groups.  `h5py`
group deletion (`del group[name]`) and creation are modelled on those
lists; dtype casts (`astype`) are elided (values live in `ℤ`/`ℚ`). -/

/-- An RNA's group in the raw-contact store: gene-coordinate attributes,
the `total_contacts` attribute, and one sub-group per chromosome holding
the `start`/`end` arrays. -/
structure DnaRnaGroup where
  coord : GeneCoord
  total_contacts : ℕ
  chroms : List (String × (List ℤ × List ℤ))
deriving DecidableEq, Repr

/-- The `dna_parts` payload of a `.dnah5` file. -/
structure DnaState where
  dna_parts : List (String × DnaRnaGroup)
deriving DecidableEq, Repr

/-- String order on the character lists (the lexicographic string order,
structurally decidable). -/
def strLe (a b : String) : Prop := a.data < b.data ∨ a.data = b.data

instance : DecidableRel strLe := fun a b => by
  unfold strLe; infer_instance

/-- `df.groupby('chrom')` of a bed3 frame: per-chromosome `start`/`end`
arrays, keys sorted as pandas sorts group keys. -/
def groupByChrom (df : List Bed3) : List (String × (List ℤ × List ℤ)) :=
  (((df.map (fun r => r.chrom)).dedup).insertionSort strLe).map (fun c =>
    (c, ((df.filter (fun r => r.chrom = c)).map (fun r => r.start),
         (df.filter (fun r => r.chrom = c)).map (fun r => r.stop))))

/-- `DnaDataset._write_dna_parts` (formats.py line 529, reached in the
pipeline via `write_dna_parts_batch`): look the RNA up in the annotation
(`KeyError` if absent), delete any existing group for that RNA, and
recreate it from the input frame with the gene-coordinate attributes,
`total_contacts = df.shape[0]`, and per-chromosome arrays. -/
def _write_dna_parts (annot : List (String × GeneCoord)) (s : DnaState)
    (rna_name : String) (dna_parts : List Bed3) : Except String DnaState :=
  match annot.lookup rna_name with
  | none => .error "KeyError"
  | some coord => .ok ⟨(s.dna_parts.filter (fun e => e.1 ≠ rna_name)) ++
      [(rna_name, ⟨coord, dna_parts.length, groupByChrom dna_parts⟩)]⟩

/-- The public single-RNA method `DnaDataset.write_dna_parts`
(formats.py line 585): its body calls `self._write_dna_parts_single(f,
rna_name, dna_parts)`, a method that is defined nowhere in the class (the
existing helper is named `_write_dna_parts`), so every call raises
`AttributeError` after opening the file in append mode and before any
write — the store is left unchanged. -/
def write_dna_parts (_annot : List (String × GeneCoord)) (_s : DnaState)
    (_rna_name : String) (_dna_parts : List Bed3) : Except String DnaState :=
  .error "AttributeError: _write_dna_parts_single"

/-- An RNA's group in the pixel store: gene-coordinate and `RnaAttrs`
attributes plus one sub-group per chromosome holding named column
datasets. -/
structure PixelGroup where
  coord : GeneCoord
  attrs : RnaAttrs
  chroms : List (String × List (String × List ℚ))
deriving DecidableEq, Repr

/-- The `pixels` payload of an `.rdc` file. -/
structure RdcState where
  pixels : List (String × PixelGroup)
deriving DecidableEq, Repr

/-- The column schema of `Rdc` version "1.1" (`pixels_cols_by_version`). -/
def pixels_cols_v11 : List String :=
  ["start", "end", "signal_count", "signal_prob", "impute", "bg_count", "bg_prob",
   "raw_bg_prob", "scaling_factor", "fc", "pvalue", "qvalue_global", "qvalue_rna"]

/-- `Rdc._write_pixels`: delete any existing group for the RNA, recreate it
with the attribute record, and, per chromosome group of the input frame,
create one dataset for each schema column present in the frame — columns
outside the schema are silently omitted.  The input frame is modelled
already grouped by chromosome, each group carrying its columns by name. -/
def write_pixels (pixels_cols : List String) (s : RdcState) (rna_name : String)
    (pixels_df : List (String × List (String × List ℚ)))
    (rna_coords : GeneCoord) (rna_attrs : RnaAttrs) : RdcState :=
  ⟨(s.pixels.filter (fun e => e.1 ≠ rna_name)) ++
    [(rna_name, ⟨rna_coords, rna_attrs,
      pixels_df.map (fun cg => (cg.1,
        pixels_cols.filterMap (fun col => (cg.2.lookup col).map (fun d => (col, d)))))⟩)]⟩

/-- Replace the first entry with the given key. -/
def replaceFirst {α : Type} (l : List (String × α)) (k : String) (g : α) :
    List (String × α) :=
  match l with
  | [] => []
  | e :: t => if e.1 = k then (k, g) :: t else e :: replaceFirst t k g

/-- In-place column write of `_write_pixels_column` inside one chromosome
group: overwrite the dataset when it exists, create it otherwise. -/
def updateChromCol (g : PixelGroup) (chrom col : String) (vals : List ℚ) : PixelGroup :=
  { g with chroms := g.chroms.map (fun cg => if cg.1 = chrom then
      (cg.1, if (cg.2.lookup col).isSome
             then cg.2.map (fun ds => if ds.1 = col then (col, vals) else ds)
             else cg.2 ++ [(col, vals)])
      else cg) }

/-- The per-chromosome loop of `Rdc._write_pixels_column`: raises when the
chromosome group is absent or the column name is not in the schema, and
otherwise writes; earlier iterations' writes persist when a later one
raises (the store is mutated in place). -/
def write_pixels_column_loop (pixels_cols : List String) (col : String) :
    PixelGroup → List (String × List ℚ) → Except String Unit × PixelGroup
  | g, [] => (.ok (), g)
  | g, (chrom, vals) :: rest =>
    if ((g.chroms.lookup chrom).isSome : Bool) then
      if col ∈ pixels_cols then
        write_pixels_column_loop pixels_cols col (updateChromCol g chrom col vals) rest
      else (.error "column not in schema", g)
    else (.error "chrom group missing", g)

/-- `Rdc.write_pixels_column` (via `_write_pixels_column`): requires the
RNA group to exist; then runs the per-chromosome loop.  The second
component is the store after the call (partial writes persist on error;
a missing `pixels` group and a missing RNA group both raise before any
write). -/
def write_pixels_column (pixels_cols : List String) (s : RdcState) (rna_name col : String)
    (col_frame : List (String × List ℚ)) : Except String Unit × RdcState :=
  match s.pixels.lookup rna_name with
  | none => (.error "rna group missing", s)
  | some g =>
    let r := write_pixels_column_loop pixels_cols col g col_frame
    (r.1, ⟨replaceFirst s.pixels rna_name r.2⟩)

/-! ## Claim C2: the public dna write is broken; the helpers replace -/

theorem filter_key_append_self {α : Type} (l : List (String × α)) (rna : String)
    (g : α) :
    (((l.filter (fun x => x.1 ≠ rna)) ++ [(rna, g)]).filter (fun x => x.1 ≠ rna)) =
      l.filter (fun x => x.1 ≠ rna) := by
  rw [List.filter_append, List.filter_filter]
  simp

theorem lookup_filter_append {α : Type} (l : List (String × α)) (rna : String) (g : α) :
    ((l.filter (fun x => x.1 ≠ rna)) ++ [(rna, g)]).lookup rna = some g := by
  induction l with
  | nil => simp [List.lookup]
  | cons e t ih =>
    by_cases he : e.1 = rna
    · simpa [List.filter, he] using ih
    · have hb : (rna == e.1) = false := by
        simp [he]
        exact fun h => he h.symm
      simp only [List.filter, decide_not]
      rw [show (decide (e.1 = rna)) = false by simp [he]]
      simpa [List.lookup, hb] using ih

/-- C2: the claimed replacement semantics do NOT hold for the public
single-RNA method `DnaDataset.write_dna_parts` — its body calls the
nonexistent `self._write_dna_parts_single`, so every call raises
`AttributeError` and nothing is written; the delete-then-recreate
semantics the claim describes do hold for the helper `_write_dna_parts`
(used by the batch path) and for `Rdc._write_pixels`: what a reader sees
for the RNA depends on the write's inputs only, and writing the same
data twice equals writing it once. -/
theorem write_dna_parts_bug
    (ann : List (String × GeneCoord)) (coord : GeneCoord) (s s₁ s₂ : DnaState)
    (rna : String) (df : List Bed3) (s' : DnaState)
    (hann : ann.lookup rna = some coord)
    (hok : _write_dna_parts ann s rna df = Except.ok s')
    (cols : List String) (ps ps₁ ps₂ : RdcState)
    (pdf : List (String × List (String × List ℚ))) (pc : GeneCoord) (pa : RnaAttrs) :
    write_dna_parts ann s rna df =
      Except.error "AttributeError: _write_dna_parts_single" ∧
    _write_dna_parts ann s' rna df = Except.ok s' ∧
    (_write_dna_parts ann s₁ rna df).map (fun st => st.dna_parts.lookup rna) =
      (_write_dna_parts ann s₂ rna df).map (fun st => st.dna_parts.lookup rna) ∧
    write_pixels cols (write_pixels cols ps rna pdf pc pa) rna pdf pc pa =
      write_pixels cols ps rna pdf pc pa ∧
    (write_pixels cols ps₁ rna pdf pc pa).pixels.lookup rna =
      (write_pixels cols ps₂ rna pdf pc pa).pixels.lookup rna := by
  refine ⟨rfl, ?_, ?_, ?_, ?_⟩
  · simp only [_write_dna_parts, hann] at hok ⊢
    have hs' : s' = ⟨(s.dna_parts.filter (fun e => e.1 ≠ rna)) ++
        [(rna, ⟨coord, df.length, groupByChrom df⟩)]⟩ := (Except.ok.inj hok).symm
    subst hs'
    rw [filter_key_append_self]
  · simp only [_write_dna_parts, hann, Except.map]
    rw [lookup_filter_append, lookup_filter_append]
  · simp only [write_pixels]
    rw [filter_key_append_self]
  · simp only [write_pixels]
    rw [lookup_filter_append, lookup_filter_append]

/-- Witness for `write_dna_parts_bug` on concrete one-RNA stores: the
public method errors while the helper replaces idempotently. -/
theorem write_dna_parts_bug_witness :
    write_dna_parts [("rnaX", ⟨"chrA", 0, 10⟩)]
      ⟨[("rnaX", ⟨⟨"chrA", 0, 10⟩, 3, [("chrB", ([5], [7]))]⟩)]⟩ "rnaX" [⟨"chrA", 1, 3⟩] =
      Except.error "AttributeError: _write_dna_parts_single" ∧
    _write_dna_parts [("rnaX", ⟨"chrA", 0, 10⟩)]
      ⟨[("rnaX", ⟨⟨"chrA", 0, 10⟩, 3, [("chrB", ([5], [7]))]⟩)]⟩ "rnaX" [⟨"chrA", 1, 3⟩] =
      Except.ok ⟨[("rnaX", ⟨⟨"chrA", 0, 10⟩, 1, [("chrA", ([1], [3]))]⟩)]⟩ ∧
    _write_dna_parts [("rnaX", ⟨"chrA", 0, 10⟩)]
      ⟨[("rnaX", ⟨⟨"chrA", 0, 10⟩, 1, [("chrA", ([1], [3]))]⟩)]⟩ "rnaX" [⟨"chrA", 1, 3⟩] =
      Except.ok ⟨[("rnaX", ⟨⟨"chrA", 0, 10⟩, 1, [("chrA", ([1], [3]))]⟩)]⟩ := by
  have h1 : _write_dna_parts [("rnaX", ⟨"chrA", 0, 10⟩)]
      ⟨[("rnaX", ⟨⟨"chrA", 0, 10⟩, 3, [("chrB", ([5], [7]))]⟩)]⟩ "rnaX" [⟨"chrA", 1, 3⟩] =
      Except.ok ⟨[("rnaX", ⟨⟨"chrA", 0, 10⟩, 1, [("chrA", ([1], [3]))]⟩)]⟩ := by decide
  have h := write_dna_parts_bug [("rnaX", ⟨"chrA", 0, 10⟩)] ⟨"chrA", 0, 10⟩
    ⟨[("rnaX", ⟨⟨"chrA", 0, 10⟩, 3, [("chrB", ([5], [7]))]⟩)]⟩ ⟨[]⟩ ⟨[]⟩ "rnaX"
    [⟨"chrA", 1, 3⟩] ⟨[("rnaX", ⟨⟨"chrA", 0, 10⟩, 1, [("chrA", ([1], [3]))]⟩)]⟩
    (by decide) h1 [] ⟨[]⟩ ⟨[]⟩ ⟨[]⟩ [] ⟨"chrA", 0, 10⟩ ⟨1, 1, 1, 0, 0⟩
  exact ⟨h.1, h1, h.2.1⟩

/-! ## Claim C7: version checking fails closed -/

/-- The supported version set of the raw-contact store (`DnaDataset`). -/
def dna_supported_versions : List String := ["1"]

/-- The supported version set of the pixel store (`Rdc`). -/
def rdc_supported_versions : List String := ["1", "1.1"]

/-- `VersionProperty.__get__` on first access: read the persisted
attribute; cache and return it when it is in the supported set, raise a
`ValueError` otherwise.  No write to the file ever happens here. -/
def versionPropertyGet (supported_versions : List String) (stored : String) :
    Except String String :=
  if stored ∈ supported_versions then .ok stored
  else .error "Unsupported version"

/-- A persisted store file: its `version` root attribute, its
`chrom_sizes` group (chromosome name/size pairs), and the rest of its
payload. -/
structure StoreFile (α : Type) where
  version : String
  chrom_sizes : List (String × ℤ)
  payload : α
deriving DecidableEq

/-- `_write_chromsizes` (same body in both stores, formats.py lines 457
and 440): delete the existing `chrom_sizes` group when present and
recreate its `chrom`/`size` datasets from the dictionary; the version
attribute and the rest of the file are untouched. -/
def write_chromsizes {α : Type} (f : StoreFile α) (cs : List (String × ℤ)) :
    StoreFile α :=
  { f with chrom_sizes := cs }

/-- `DnaDataset.__init__` on an existing file (formats.py lines 330-346):
the version is read through `VersionProperty` (which raises on an
unsupported value) and re-checked against the supported set BEFORE the
optional chromsizes write; only when the checks pass and a `chromsizes`
argument was given does `_write_chromsizes` run. -/
def dnaDataset_open_existing {α : Type}
    (chromsizes : Option (List (String × ℤ))) (f : StoreFile α) :
    Except String String × StoreFile α :=
  match versionPropertyGet dna_supported_versions f.version with
  | .error e => (.error e, f)
  | .ok v =>
    if v ∉ dna_supported_versions then (.error "Unsupported version", f)
    else match chromsizes with
      | none => (.ok v, f)
      | some cs => (.ok v, write_chromsizes f cs)

/-- `Rdc.__init__` on an existing file (formats.py lines 812-836): when a
`chromsizes` argument is passed, `_write_chromsizes` runs FIRST — deleting
and recreating the `chrom_sizes` group — and only afterwards is the
version read and checked, so an unsupported-version file is modified
before the constructor raises. -/
def rdc_open_existing {α : Type}
    (chromsizes : Option (List (String × ℤ))) (f : StoreFile α) :
    Except String String × StoreFile α :=
  let f1 := match chromsizes with
    | none => f
    | some cs => write_chromsizes f cs
  match versionPropertyGet rdc_supported_versions f1.version with
  | .error e => (.error e, f1)
  | .ok v =>
    if v ∉ rdc_supported_versions then (.error "Unsupported version", f1)
    else (.ok v, f1)

/-- C7 counterexample: opening an existing pixel store of unsupported
version "2" while passing a chromsizes argument rewrites the file's
`chrom_sizes` group from `[("chr0", 5)]` to `[("chr1", 10)]` before the
constructor raises — "the file is not modified" fails for `Rdc`. -/
theorem rdc_open_writes_before_version_check :
    rdc_open_existing (some [("chr1", 10)])
      (⟨"2", [("chr0", 5)], ()⟩ : StoreFile Unit) =
      (Except.error "Unsupported version", ⟨"2", [("chr1", 10)], ()⟩) ∧
    (⟨"2", [("chr1", 10)], ()⟩ : StoreFile Unit) ≠ ⟨"2", [("chr0", 5)], ()⟩ ∧
    "2" ∉ rdc_supported_versions := by
  decide

/-- C7 amended: the fail-closed discipline holds fully for the raw-contact
store and only partially for the pixel store.  `DnaDataset.__init__`
checks the version before the optional chromsizes write, so on an
unsupported version it fails with the file unchanged even when a
`chromsizes` argument is passed.  `Rdc.__init__` behaves that way only
without a `chromsizes` argument; with one it first rewrites the
`chrom_sizes` group and then raises, leaving the file equal to
`write_chromsizes` of the original.  On every path the version attribute
itself is never modified (no silent upgrade), and `"2"` is outside both
supported sets. -/
theorem open_unsupported_version_amended {α β : Type}
    (oc : Option (List (String × ℤ))) (cs : List (String × ℤ))
    (f : StoreFile α) (g : StoreFile β)
    (hf : f.version ∉ dna_supported_versions)
    (hg : g.version ∉ rdc_supported_versions) :
    dnaDataset_open_existing oc f = (Except.error "Unsupported version", f) ∧
    rdc_open_existing none g = (Except.error "Unsupported version", g) ∧
    rdc_open_existing (some cs) g =
      (Except.error "Unsupported version", write_chromsizes g cs) ∧
    (rdc_open_existing (some cs) g).2.version = g.version ∧
    "2" ∉ dna_supported_versions ∧ "2" ∉ rdc_supported_versions := by
  refine ⟨?_, ?_, ?_, ?_, by decide, by decide⟩
  · simp [dnaDataset_open_existing, versionPropertyGet, hf]
  · simp [rdc_open_existing, versionPropertyGet, hg]
  · simp [rdc_open_existing, versionPropertyGet, write_chromsizes, hg]
  · simp [rdc_open_existing, versionPropertyGet, write_chromsizes, hg]

/-- Witness for `open_unsupported_version_amended`: version "2" on both
stores, with a concrete chromsizes argument. -/
theorem open_unsupported_version_amended_witness :
    ("2" : String) ∉ dna_supported_versions ∧
    ("2" : String) ∉ rdc_supported_versions ∧
    dnaDataset_open_existing (some [("chr1", 10)])
      (⟨"2", [("chr0", 5)], ()⟩ : StoreFile Unit) =
      (Except.error "Unsupported version", ⟨"2", [("chr0", 5)], ()⟩) ∧
    rdc_open_existing (some [("chr1", 10)])
      (⟨"2", [("chr0", 5)], ()⟩ : StoreFile Unit) =
      (Except.error "Unsupported version",
        write_chromsizes ⟨"2", [("chr0", 5)], ()⟩ [("chr1", 10)]) := by
  have h := open_unsupported_version_amended (some [("chr1", 10)]) [("chr1", 10)]
    (⟨"2", [("chr0", 5)], ()⟩ : StoreFile Unit)
    (⟨"2", [("chr0", 5)], ()⟩ : StoreFile Unit) (by decide) (by decide)
  exact ⟨by decide, by decide, h.1, h.2.2.1⟩

/-! ## Claim C9: the pixel-store column-schema invariant -/

/-- The invariant: every dataset under every chromosome group of every
RNA's pixels group is named by a member of the declared column schema. -/
def pixelsInv (s : RdcState) (schema : List String) : Prop :=
  ∀ e ∈ s.pixels, ∀ cg ∈ e.2.chroms, ∀ ds ∈ cg.2, ds.1 ∈ schema

/-- The invariant restricted to one RNA group. -/
def groupInv (schema : List String) (g : PixelGroup) : Prop :=
  ∀ cg ∈ g.chroms, ∀ ds ∈ cg.2, ds.1 ∈ schema

theorem filterMap_lookup_names (schema : List String) (m : List (String × List ℚ)) :
    ((schema.filterMap (fun c => (m.lookup c).map (fun d => (c, d)))).map
      (fun ds => ds.1)) = schema.filter (fun c => ((m.lookup c).isSome : Bool)) := by
  induction schema with
  | nil => rfl
  | cons c t ih =>
    cases h : m.lookup c <;> simp [List.filterMap_cons, h, ih]

theorem updateChromCol_inv {schema : List String} {g : PixelGroup}
    (chrom col : String) (vals : List ℚ)
    (hcol : col ∈ schema) (hg : groupInv schema g) :
    groupInv schema (updateChromCol g chrom col vals) := by
  intro cg hcg ds hds
  simp only [updateChromCol] at hcg
  rcases List.mem_map.mp hcg with ⟨cg₀, hcg₀, rfl⟩
  by_cases hc : cg₀.1 = chrom
  · rw [if_pos hc] at hds
    by_cases hl : (cg₀.2.lookup col).isSome
    · rw [if_pos hl] at hds
      rcases List.mem_map.mp hds with ⟨ds₀, hds₀, rfl⟩
      by_cases hd : ds₀.1 = col
      · rw [if_pos hd]
        exact hcol
      · rw [if_neg hd]
        exact hg cg₀ hcg₀ ds₀ hds₀
    · rw [if_neg hl] at hds
      rcases List.mem_append.mp hds with hds | hds
      · exact hg cg₀ hcg₀ ds hds
      · rw [List.mem_singleton] at hds
        subst hds
        exact hcol
  · rw [if_neg hc] at hds
    exact hg cg₀ hcg₀ ds hds

theorem write_pixels_column_loop_inv (schema : List String) (col : String) :
    ∀ (frame : List (String × List ℚ)) (g : PixelGroup), groupInv schema g →
      groupInv schema (write_pixels_column_loop schema col g frame).2 := by
  intro frame
  induction frame with
  | nil => intro g hg; exact hg
  | cons cf rest ih =>
    intro g hg
    obtain ⟨chrom, vals⟩ := cf
    simp only [write_pixels_column_loop]
    by_cases hc : ((g.chroms.lookup chrom).isSome : Bool) = true
    · rw [if_pos hc]
      by_cases hcol : col ∈ schema
      · rw [if_pos hcol]
        exact ih _ (updateChromCol_inv chrom col vals hcol hg)
      · rw [if_neg hcol]
        exact hg
    · rw [if_neg hc]
      exact hg

theorem replaceFirst_self {α : Type} :
    ∀ (l : List (String × α)) (k : String) (g : α), l.lookup k = some g →
      replaceFirst l k g = l := by
  intro l
  induction l with
  | nil => intro k g h; simp [List.lookup] at h
  | cons e t ih =>
    intro k g h
    obtain ⟨k₀, v⟩ := e
    by_cases hk : k = k₀
    · subst hk
      simp only [List.lookup, beq_self_eq_true, if_pos] at h
      have hv : v = g := by
        simpa using h
      simp [replaceFirst, hv]
    · have hb : (k == k₀) = false := beq_eq_false_iff_ne.mpr hk
      simp only [List.lookup, hb] at h
      simp only [replaceFirst, if_neg (fun hh : k₀ = k => hk hh.symm)]
      rw [ih k g h]

theorem lookup_mem {α : Type} :
    ∀ (l : List (String × α)) (k : String) (g : α),
      l.lookup k = some g → (k, g) ∈ l := by
  intro l
  induction l with
  | nil => intro k g h; simp [List.lookup] at h
  | cons e t ih =>
    intro k g h
    obtain ⟨k₀, v⟩ := e
    by_cases hk : k = k₀
    · subst hk
      simp only [List.lookup, beq_self_eq_true, if_pos] at h
      have hv : v = g := by simpa using h
      subst hv
      exact List.mem_cons_self _ _
    · have hb : (k == k₀) = false := beq_eq_false_iff_ne.mpr hk
      simp only [List.lookup, hb] at h
      exact List.mem_cons_of_mem _ (ih k g h)

theorem mem_replaceFirst {α : Type} :
    ∀ (l : List (String × α)) (k : String) (g : α) (e : String × α),
      e ∈ replaceFirst l k g → e = (k, g) ∨ e ∈ l := by
  intro l
  induction l with
  | nil => intro k g e h; simp [replaceFirst] at h
  | cons e₀ t ih =>
    intro k g e h
    simp only [replaceFirst] at h
    by_cases hk : e₀.1 = k
    · rw [if_pos hk] at h
      rcases List.mem_cons.mp h with h | h
      · exact Or.inl h
      · exact Or.inr (List.mem_cons_of_mem _ h)
    · rw [if_neg hk] at h
      rcases List.mem_cons.mp h with h | h
      · exact Or.inr (h ▸ List.mem_cons_self _ _)
      · rcases ih k g e h with h | h
        · exact Or.inl h
        · exact Or.inr (List.mem_cons_of_mem _ h)

/-- C9: every pixel write preserves the column-schema invariant.
`_write_pixels` silently omits input columns outside the schema (it
returns normally and the datasets it creates are exactly the schema
columns present in the frame, in schema order), and `_write_pixels_column`
fails when asked to write a column name outside the schema, leaving the
store unchanged; in every case — success or error — the store still
satisfies the invariant. -/
theorem pixels_schema_invariant
    (schema : List String) (s : RdcState) (rna : String)
    (pdf : List (String × List (String × List ℚ))) (pc : GeneCoord) (pa : RnaAttrs)
    (col : String) (frame : List (String × List ℚ))
    (hinv : pixelsInv s schema) :
    pixelsInv (write_pixels schema s rna pdf pc pa) schema ∧
    ((write_pixels schema s rna pdf pc pa).pixels.lookup rna).map
        (fun g => g.chroms.map (fun cg => (cg.1, cg.2.map (fun ds => ds.1)))) =
      some (pdf.map (fun cg =>
        (cg.1, schema.filter (fun c => ((cg.2.lookup c).isSome : Bool))))) ∧
    (col ∉ schema → frame ≠ [] →
      (∃ msg, (write_pixels_column schema s rna col frame).1 = Except.error msg) ∧
      (write_pixels_column schema s rna col frame).2 = s) ∧
    pixelsInv (write_pixels_column schema s rna col frame).2 schema := by
  refine ⟨?_, ?_, ?_, ?_⟩
  · intro e he cg hcg ds hds
    simp only [write_pixels] at he
    rcases List.mem_append.mp he with he | he
    · exact hinv e (List.mem_of_mem_filter he) cg hcg ds hds
    · rw [List.mem_singleton] at he
      subst he
      rcases List.mem_map.mp hcg with ⟨cg₀, _, rfl⟩
      rcases List.mem_filterMap.mp hds with ⟨c, hc, hcds⟩
      rcases Option.map_eq_some'.mp hcds with ⟨d, _, rfl⟩
      exact hc
  · simp only [write_pixels]
    rw [lookup_filter_append, Option.map_some']
    have hmn : ∀ t : List (String × List (String × List ℚ)),
        ((t.map (fun cg => (cg.1,
          schema.filterMap (fun c => (cg.2.lookup c).map (fun d => (c, d)))))).map
          (fun cg => (cg.1, cg.2.map (fun ds => ds.1)))) =
        t.map (fun cg => (cg.1, schema.filter (fun c => ((cg.2.lookup c).isSome : Bool)))) := by
      intro t
      induction t with
      | nil => rfl
      | cons cg tl ih => simp [ih, filterMap_lookup_names]
    exact congrArg some (hmn pdf)
  · intro hcol hframe
    simp only [write_pixels_column]
    cases hl : s.pixels.lookup rna with
    | none => exact ⟨⟨"rna group missing", rfl⟩, rfl⟩
    | some g =>
      obtain ⟨cf, rest, hfr⟩ : ∃ cf rest, frame = cf :: rest := by
        cases frame with
        | nil => exact absurd rfl hframe
        | cons cf rest => exact ⟨cf, rest, rfl⟩
      subst hfr
      obtain ⟨chrom, vals⟩ := cf
      simp only [write_pixels_column_loop]
      by_cases hc : ((g.chroms.lookup chrom).isSome : Bool) = true
      · rw [if_pos hc, if_neg hcol]
        exact ⟨⟨"column not in schema", rfl⟩, by rw [replaceFirst_self s.pixels rna g hl]⟩
      · rw [if_neg hc]
        exact ⟨⟨"chrom group missing", rfl⟩, by rw [replaceFirst_self s.pixels rna g hl]⟩
  · simp only [write_pixels_column]
    cases hl : s.pixels.lookup rna with
    | none => exact hinv
    | some g =>
      intro e he cg hcg ds hds
      have hg : groupInv schema g := by
        have hmem : (rna, g) ∈ s.pixels := lookup_mem s.pixels rna g hl
        exact fun cg' hcg' ds' hds' => hinv (rna, g) hmem cg' hcg' ds' hds'
      rcases mem_replaceFirst s.pixels rna _ e he with he | he
      · subst he
        exact write_pixels_column_loop_inv schema col frame g hg cg hcg ds hds
      · exact hinv e he cg hcg ds hds

/-- Witness for `pixels_schema_invariant`: a one-RNA store with schema
`["start", "end"]`, a frame carrying a non-schema column `"junk"`, and a
column write of the non-schema name `"zzz"`. -/
theorem pixels_schema_invariant_witness :
    pixelsInv (write_pixels ["start", "end"]
      ⟨[("r", ⟨⟨"chrA", 0, 10⟩, ⟨1, 1, 1, 0, 0⟩, [("chrA", [("start", [])])]⟩)]⟩
      "r" [("chrA", [("start", []), ("junk", [])])] ⟨"chrA", 0, 10⟩ ⟨1, 1, 1, 0, 0⟩)
      ["start", "end"] ∧
    (∃ msg, (write_pixels_column ["start", "end"]
      ⟨[("r", ⟨⟨"chrA", 0, 10⟩, ⟨1, 1, 1, 0, 0⟩, [("chrA", [("start", [])])]⟩)]⟩
      "r" "zzz" [("chrA", [])]).1 = Except.error msg) ∧
    (write_pixels_column ["start", "end"]
      ⟨[("r", ⟨⟨"chrA", 0, 10⟩, ⟨1, 1, 1, 0, 0⟩, [("chrA", [("start", [])])]⟩)]⟩
      "r" "zzz" [("chrA", [])]).2 =
      ⟨[("r", ⟨⟨"chrA", 0, 10⟩, ⟨1, 1, 1, 0, 0⟩, [("chrA", [("start", [])])]⟩)]⟩ := by
  have h := pixels_schema_invariant ["start", "end"]
    ⟨[("r", ⟨⟨"chrA", 0, 10⟩, ⟨1, 1, 1, 0, 0⟩, [("chrA", [("start", [])])]⟩)]⟩
    "r" [("chrA", [("start", []), ("junk", [])])] ⟨"chrA", 0, 10⟩ ⟨1, 1, 1, 0, 0⟩
    "zzz" [("chrA", [])] (by unfold pixelsInv; decide)
  exact ⟨h.1, (h.2.2.1 (by decide) (by decide)).1, (h.2.2.1 (by decide) (by decide)).2⟩

/-! ## The significance engine (`utils/peaks.py`) -/

/-- Models the external exact-binomial-test primitive
`scipy.stats.binomtest(k, n=n, p=p, alternative='greater').pvalue`: the
one-sided upper-tail probability `P(X ≥ k)` for `X ~ Binomial(n, p)`. -/
def binomtest_greater_pvalue (k n : ℕ) (p : ℚ) : ℚ :=
  ∑ j ∈ Finset.Icc k n, (n.choose j : ℚ) * p ^ j * (1 - p) ^ (n - j)

/-- A pixel row as read by `_calculate_pvals_single` with
`value_fields=['signal_count', 'bg_prob']`. -/
structure PixelRowP where
  chrom : String
  signal_count : ℕ
  bg_prob : ℚ
deriving DecidableEq, Repr

/-- `_calculate_pvals_single(rna_name, total_contacts, rdc_data)`: per
row, `NaN` when `signal_count == 0`, otherwise the one-sided exact
binomial p-value at `k = signal_count`, `n = total_contacts`,
`p = bg_prob`; returns the `chrom`/`pvalue` columns. -/
def calculate_pvals_single (total_contacts : ℕ) (pixels : List PixelRowP) :
    List (String × Option ℚ) :=
  pixels.map (fun row => (row.chrom,
    if row.signal_count = 0 then none
    else some (binomtest_greater_pvalue row.signal_count total_contacts row.bg_prob)))

/-- One RNA's entry of the pixel store as consumed by `_calculate_pvals`:
the `cis_contacts`/`trans_contacts` attributes and the pixel rows. -/
structure RnaPixEntry where
  cis_contacts : ℕ
  trans_contacts : ℕ
  pixels : List PixelRowP
deriving DecidableEq, Repr

/-- `_calculate_pvals(rdc_data)`: for every RNA,
`total_contacts = cis_contacts + trans_contacts`, mapped over
`_calculate_pvals_single`. -/
def calculate_pvals (rdc : List (String × RnaPixEntry)) :
    List (String × List (String × Option ℚ)) :=
  rdc.map (fun e => (e.1,
    calculate_pvals_single (e.2.cis_contacts + e.2.trans_contacts) e.2.pixels))

theorem lookup_map_keyed {α β : Type} (F : α → β) :
    ∀ (l : List (String × α)) (k : String),
      (l.map (fun e => (e.1, F e.2))).lookup k = (l.lookup k).map F := by
  intro l
  induction l with
  | nil => intro k; rfl
  | cons e t ih =>
    intro k
    by_cases hb : (k == e.1) = true
    · simp [List.lookup, hb]
    · have hb' : (k == e.1) = false := by
        cases h : (k == e.1) with
        | true => exact absurd h hb
        | false => rfl
      simp [List.lookup, hb', ih]

/-- C5: for every RNA of the store, the significance engine assigns each
bin with `signal_count > 0` the p-value of the one-sided exact binomial
test `P(X ≥ signal_count)` with `n = cis_contacts + trans_contacts` and
`p = bg_prob`, and assigns `NaN` (no test) to every bin with
`signal_count == 0`. -/
theorem calculate_pvals_spec (rdc : List (String × RnaPixEntry)) (r : String)
    (e : RnaPixEntry) (i : ℕ) (row : PixelRowP)
    (hr : rdc.lookup r = some e) (hi : e.pixels[i]? = some row) :
    ∃ pv, (calculate_pvals rdc).lookup r = some pv ∧
      pv[i]? = some (row.chrom,
        if row.signal_count = 0 then none
        else some (binomtest_greater_pvalue row.signal_count
          (e.cis_contacts + e.trans_contacts) row.bg_prob)) := by
  refine ⟨calculate_pvals_single (e.cis_contacts + e.trans_contacts) e.pixels, ?_, ?_⟩
  · rw [calculate_pvals, lookup_map_keyed
      (fun x : RnaPixEntry => calculate_pvals_single (x.cis_contacts + x.trans_contacts)
        x.pixels) rdc r, hr, Option.map_some']
  · rw [calculate_pvals_single, List.getElem?_map, hi, Option.map_some']

/-- Witness for `calculate_pvals_spec`: a one-RNA store with a zero-signal
bin (p-value `NaN`) and a signal bin (exact binomial upper tail at
`n = 3 + 4`). -/
theorem calculate_pvals_spec_witness :
    (∃ pv, (calculate_pvals [("r", ⟨3, 4, [⟨"chrA", 0, 0⟩, ⟨"chrB", 2, 0⟩]⟩)]).lookup "r" =
        some pv ∧
      pv[0]? = some ("chrA", if (0 : ℕ) = 0 then none
        else some (binomtest_greater_pvalue 0 (3 + 4) 0))) ∧
    (∃ pv, (calculate_pvals [("r", ⟨3, 4, [⟨"chrA", 0, 0⟩, ⟨"chrB", 2, 0⟩]⟩)]).lookup "r" =
        some pv ∧
      pv[1]? = some ("chrB", if (2 : ℕ) = 0 then none
        else some (binomtest_greater_pvalue 2 (3 + 4) 0))) :=
  ⟨calculate_pvals_spec [("r", ⟨3, 4, [⟨"chrA", 0, 0⟩, ⟨"chrB", 2, 0⟩]⟩)] "r"
      ⟨3, 4, [⟨"chrA", 0, 0⟩, ⟨"chrB", 2, 0⟩]⟩ 0 ⟨"chrA", 0, 0⟩ rfl rfl,
   calculate_pvals_spec [("r", ⟨3, 4, [⟨"chrA", 0, 0⟩, ⟨"chrB", 2, 0⟩]⟩)] "r"
      ⟨3, 4, [⟨"chrA", 0, 0⟩, ⟨"chrB", 2, 0⟩]⟩ 1 ⟨"chrB", 2, 0⟩ rfl rfl⟩

/-- The non-`NaN` entries of a p-value column (`dropna`). -/
def dropNone (l : List (Option ℚ)) : List ℚ := l.filterMap id

/-- Scatter corrected values back onto the non-`NaN` positions of the
original column (`rna_stats.loc[~isna, col] = values`); `NaN` rows keep
`NaN`. -/
def scatterSome : List (Option ℚ) → List ℚ → List (Option ℚ)
  | [], _ => []
  | none :: ps, vs => none :: scatterSome ps vs
  | some _ :: ps, v :: vs => some v :: scatterSome ps vs
  | some _ :: ps, [] => none :: scatterSome ps []

/-- Split a pooled vector back into per-RNA segments by the per-RNA
non-`NaN` counts (the `groupby('rna_name')` redistribution of the global
q-values, whose rows are pooled in data order). -/
def splitSegs : List ℕ → List ℚ → List (List ℚ)
  | [], _ => []
  | n :: ns, vs => vs.take n :: splitSegs ns (vs.drop n)

/-- `estimate_significance` q-value computation (`peaks.py` lines 43-59):
for each RNA, the Benjamini-Hochberg primitive applied to its own
non-`NaN` p-values gives `qvalue_rna`; the same primitive applied to the
pooled p-values of all RNAs, split back into per-RNA segments, gives
`qvalue_global`; both are scattered back onto the non-`NaN` positions.
The BH primitive (`statsmodels.stats.multipletests(..., method='fdr_bh')`)
is an external collaborator, passed as the function `bh`. -/
def estimate_significance_qvalues (bh : List ℚ → List ℚ)
    (data : List (String × List (Option ℚ))) :
    List (String × (List (Option ℚ) × List (Option ℚ))) :=
  let qGlob := bh ((data.map (fun e => dropNone e.2)).flatten)
  let segs := splitSegs (data.map (fun e => (dropNone e.2).length)) qGlob
  List.zipWith (fun e seg =>
    (e.1, (scatterSome e.2 seg, scatterSome e.2 (bh (dropNone e.2))))) data segs

theorem splitSegs_length :
    ∀ (ns : List ℕ) (vs : List ℚ), (splitSegs ns vs).length = ns.length := by
  intro ns
  induction ns with
  | nil => intro vs; rfl
  | cons n ns ih => intro vs; simp [splitSegs, ih]

theorem lookup_zipWith_qrna (bh : List ℚ → List ℚ) :
    ∀ (data : List (String × List (Option ℚ))) (segs : List (List ℚ)) (r : String),
      segs.length = data.length →
      ((List.zipWith (fun e seg =>
          (e.1, (scatterSome e.2 seg, scatterSome e.2 (bh (dropNone e.2))))) data
          segs).lookup r).map (fun q => q.2) =
        (data.lookup r).map (fun ps => scatterSome ps (bh (dropNone ps))) := by
  intro data
  induction data with
  | nil => intro segs r _; rfl
  | cons e t ih =>
    intro segs r hlen
    cases segs with
    | nil => simp at hlen
    | cons s segs' =>
      simp only [List.zipWith]
      by_cases hb : (r == e.1) = true
      · simp [List.lookup, hb]
      · have hb' : (r == e.1) = false := by
          cases h : (r == e.1) with
          | true => exact absurd h hb
          | false => rfl
        simp only [List.lookup, hb']
        exact ih segs' r (by simpa using hlen)

/-- C6: two-run noninterference of the per-RNA correction — for every
Benjamini-Hochberg primitive and every RNA `r`, the `qvalue_rna` column
computed by `estimate_significance` for `r` is a function of `r`'s own
p-value column only: two runs whose stores agree on `r` (but may differ
arbitrarily on every other RNA) produce identical `qvalue_rna` for `r`. -/
theorem qvalue_rna_noninterference (bh : List ℚ → List ℚ)
    (d₁ d₂ : List (String × List (Option ℚ))) (r : String)
    (h : d₁.lookup r = d₂.lookup r) :
    ((estimate_significance_qvalues bh d₁).lookup r).map (fun q => q.2) =
      ((estimate_significance_qvalues bh d₂).lookup r).map (fun q => q.2) := by
  simp only [estimate_significance_qvalues]
  rw [lookup_zipWith_qrna bh d₁ _ r (by rw [splitSegs_length, List.length_map]),
    lookup_zipWith_qrna bh d₂ _ r (by rw [splitSegs_length, List.length_map]), h]

/-- Witness for `qvalue_rna_noninterference`: two stores agreeing on RNA
`"a"` and differing on RNA `"b"`, with the identity as the BH primitive. -/
theorem qvalue_rna_noninterference_witness :
    ((estimate_significance_qvalues (fun l => l)
        [("a", [some 0, none]), ("b", [some 0])]).lookup "a").map (fun q => q.2) =
      ((estimate_significance_qvalues (fun l => l)
        [("a", [some 0, none]), ("b", [none])]).lookup "a").map (fun q => q.2) :=
  qvalue_rna_noninterference (fun l => l)
    [("a", [some 0, none]), ("b", [some 0])]
    [("a", [some 0, none]), ("b", [none])] "a" rfl

end Bardic
